import Mathlib

/-!
Verification of the platform-synchronization core of a competitive-programming
progress dashboard. The definitions below are a shallow embedding of
`src/platformAPI.js` (class `PlatformAPI`) and of the CSES record-addition
method `addCSESProblem` in `src/script.js`. Ambient effects of the JavaScript
code (the network and the clock) are made explicit parameters: each
`fetch*Progress` embedding takes the parsed payload as an `Except String …`
value (`Except.error m` models an axios rejection caught by the method's
`try/catch`), the current clock reading as a `now : String` (the value
`new Date().toISOString()` would produce), and — for Codeforces — the
calendar-date function `dateOf : Nat → String` standing for
`t ↦ new Date(t*1000).toDateString()`. Problem ids are the parsed integer
ids (`parseInt` of the scraped id string).
-/

set_option maxRecDepth 4000

namespace PlatformAPI

/-- The six CSES topic categories, in the key order of the object literal
returned by `getCSESCategories` (JavaScript object keys keep insertion
order, so `Object.entries` iterates in exactly this order). -/
inductive Category where
  | intro
  | sort
  | dp
  | graph
  | range
  | tree
deriving DecidableEq, Repr

/-- Bucket of the `intro` key in `getCSESCategories` (platformAPI.js:467). -/
def introIds : List Nat :=
  [1068, 1083, 1069, 1094, 1070, 1071, 1072, 1617, 2165, 1618, 1754, 1755,
   1624, 1092, 1622, 1623, 1073, 1619, 2431]

/-- Bucket of the `sort` key in `getCSESCategories` (platformAPI.js:468),
duplicate entries preserved exactly as in the source literal. -/
def sortIds : List Nat :=
  [1621, 1084, 1090, 1091, 1619, 1629, 1640, 1643, 1074, 1621, 1629, 1640,
   1643, 2162, 2183, 2168, 1642, 1645, 1074, 1141, 1076, 1630, 1631, 1641,
   1662, 1085, 1097, 1645, 1620, 2216, 2217, 2428, 1632, 1628, 1642]

/-- Bucket of the `dp` key in `getCSESCategories` (platformAPI.js:469). -/
def dpIds : List Nat :=
  [1633, 1634, 1635, 1636, 1637, 1638, 1158, 1746, 2413, 1639, 2181, 2220,
   1653, 2442, 1097, 2181, 2220, 1644, 1097]

/-- Bucket of the `graph` key in `getCSESCategories` (platformAPI.js:470). -/
def graphIds : List Nat :=
  [1666, 1667, 1668, 1669, 1670, 1671, 1672, 1673, 1674, 1675, 1676, 1677,
   1678, 1679, 1680, 1681, 1682, 1683, 1684, 1685, 1686, 1687, 1688, 1689,
   1690, 1691, 1692, 1693, 1694, 1695, 1696, 1697, 1698, 1699, 1700, 1701]

/-- Bucket of the `range` key in `getCSESCategories` (platformAPI.js:471). -/
def rangeIds : List Nat :=
  [1646, 1647, 1648, 1649, 1650, 1651, 1652, 1143, 1749, 2166, 2206, 2401,
   2416, 1734, 1749, 1190, 2416, 2206, 2401]

/-- Bucket of the `tree` key in `getCSESCategories` (platformAPI.js:472). -/
def treeIds : List Nat :=
  [1674, 1130, 1131, 1132, 1133, 1134, 1135, 1136, 1137, 1138, 1139, 1702,
   2079, 1703, 2134, 1704]

/-- `getCSESCategories` (platformAPI.js:465-474): the static classification
table, an ordered list of (category, id-bucket) pairs mirroring the
object literal's key insertion order. -/
def getCSESCategories : List (Category × List Nat) :=
  [(.intro, introIds), (.sort, sortIds), (.dp, dpIds),
   (.graph, graphIds), (.range, rangeIds), (.tree, treeIds)]

/-- `categorizeCSESProblem` (platformAPI.js:476-484): scan the table entries
in order, return the first category whose bucket contains the id, else
`none` (the JavaScript `null`). -/
def categorizeCSESProblem (problemId : Nat) (categories : List (Category × List Nat)) :
    Option Category :=
  (categories.find? (fun e => e.2.contains problemId)).map (fun e => e.1)

/-- One solved problem scraped from a CSES user profile
(platformAPI.js:206-218): a name and the integer problem id. -/
structure SolvedProblem where
  name : String
  id : Nat
deriving DecidableEq, Repr

/-- One per-category counter of the `categories` object built by
`fetchCSESProgress` (platformAPI.js:221-228). -/
structure CatCounter where
  solved : Nat
  total : Nat
  problems : List SolvedProblem
deriving DecidableEq, Repr

/-- The `categories` object of `fetchCSESProgress`, one counter per key. -/
structure CSESCategories where
  intro : CatCounter
  sort : CatCounter
  dp : CatCounter
  graph : CatCounter
  range : CatCounter
  tree : CatCounter
deriving DecidableEq, Repr

/-- Key lookup `categories[category]`. -/
def CSESCategories.get (cats : CSESCategories) : Category → CatCounter
  | .intro => cats.intro
  | .sort => cats.sort
  | .dp => cats.dp
  | .graph => cats.graph
  | .range => cats.range
  | .tree => cats.tree

/-- In-place update of one key of the `categories` object. -/
def CSESCategories.set (cats : CSESCategories) (c : Category) (v : CatCounter) :
    CSESCategories :=
  match c with
  | .intro => { cats with intro := v }
  | .sort => { cats with sort := v }
  | .dp => { cats with dp := v }
  | .graph => { cats with graph := v }
  | .range => { cats with range := v }
  | .tree => { cats with tree := v }

/-- The initial `categories` literal of `fetchCSESProgress`
(platformAPI.js:221-228): all `solved` 0, the fixed totals, empty lists. -/
def initCategories : CSESCategories where
  intro := ⟨0, 19, []⟩
  sort := ⟨0, 35, []⟩
  dp := ⟨0, 19, []⟩
  graph := ⟨0, 36, []⟩
  range := ⟨0, 19, []⟩
  tree := ⟨0, 16, []⟩

/-- One step of the categorization loop of `fetchCSESProgress`
(platformAPI.js:233-239): if `categorizeCSESProblem` returns a category,
increment that category's `solved` and push the problem; otherwise leave
the counters alone. (The JavaScript guard `categories[category]` is always
truthy since every table category is a key of `categories`.) -/
def csesStep (cats : CSESCategories) (p : SolvedProblem) : CSESCategories :=
  match categorizeCSESProblem p.id getCSESCategories with
  | some c =>
    cats.set c ⟨(cats.get c).solved + 1, (cats.get c).total,
      (cats.get c).problems ++ [p]⟩
  | none => cats

/-- The whole categorization loop of `fetchCSESProgress`
(platformAPI.js:230-239). -/
def csesCategorize (solvedProblems : List SolvedProblem) : CSESCategories :=
  solvedProblems.foldl csesStep initCategories

/-- The response object of `fetchCSESProgress` (platformAPI.js:241-255).
`none` fields model keys absent from the JavaScript object (the failure
result carries only `success`, `error` and `totalSolved`). -/
structure CSESResult where
  success : Bool
  error : Option String
  totalSolved : Nat
  categories : Option CSESCategories
  lastUpdated : Option String
deriving DecidableEq, Repr

/-- `fetchCSESProgress` (platformAPI.js:189-256). The input is the list of
solved problems parsed from the profile page, or the caught error message;
`now` is the clock reading used for `lastUpdated`. -/
def fetchCSESProgress (now : String) :
    Except String (List SolvedProblem) → CSESResult
  | .ok solvedProblems =>
    { success := true
      error := none
      totalSolved := solvedProblems.length
      categories := some (csesCategorize solvedProblems)
      lastUpdated := some now }
  | .error m =>
    { success := false
      error := some m
      totalSolved := 0
      categories := none
      lastUpdated := none }

/-- A JavaScript value that is either a number or a string (the `rating`
fields hold a number, `"Unrated"` or `"Error"`). -/
inductive JsVal where
  | num (n : Nat)
  | str (s : String)
deriving DecidableEq, Repr

/-- The JavaScript idiom `r || d` for a possibly-absent numeric field with a
string default: `undefined` and `0` are falsy, any other number is kept. -/
def jsOrStr (r : Option Nat) (d : String) : JsVal :=
  match r with
  | some n => if n == 0 then .str d else .num n
  | none => .str d

/-- The JavaScript idiom `r || v` with a `JsVal` fallback
(`userInfo.maxRating || rating`). -/
def jsOrVal (r : Option Nat) (v : JsVal) : JsVal :=
  match r with
  | some n => if n == 0 then v else .num n
  | none => v

/-- `Set.add` of a JavaScript `Set`, modelled as an insertion-ordered
duplicate-free list: append if absent. -/
def setInsert {α : Type} [DecidableEq α] (x : α) (s : List α) : List α :=
  if x ∈ s then s else s ++ [x]

/-- The `problem` object of a Codeforces submission. -/
structure CFProblem where
  contestId : Nat
  index : String
  name : String
  rating : Option Nat
deriving DecidableEq, Repr

/-- One entry of the `user.status` result array, restricted to the fields
`fetchCodeforcesProgress` reads. `authorParticipantType` embeds
`submission.author.participantType`. -/
structure CFSubmission where
  verdict : String
  problem : CFProblem
  creationTimeSeconds : Nat
  authorParticipantType : String
  contestId : Nat
deriving DecidableEq, Repr

/-- One entry pushed into a `dailySolves` date list
(platformAPI.js:301-305). -/
structure CFDailyEntry where
  key : String
  name : String
  rating : JsVal
deriving DecidableEq, Repr

/-- `dailySolves` is a JavaScript object keyed by date string; modelled as an
insertion-ordered association list. -/
abbrev DailyMap : Type := List (String × List CFDailyEntry)

/-- The `dailySolves` update of platformAPI.js:295-307: ensure a list exists
for the date, then push the entry unless an entry with the same key is
already in that date's list. -/
def dailyAdd (d : String) (e : CFDailyEntry) : DailyMap → DailyMap
  | [] => [(d, [e])]
  | (d', l) :: rest =>
    if d' = d then
      if l.any (fun p => p.key == e.key) then (d', l) :: rest
      else (d', l ++ [e]) :: rest
    else (d', l) :: dailyAdd d e rest

/-- One step of the first `submissions.forEach` loop
(platformAPI.js:289-308): on verdict `OK`, add the problem key
`contestId ++ index` to the solved set and record the solve under its
calendar date. -/
def cfStep (dateOf : Nat → String) (st : List String × DailyMap)
    (s : CFSubmission) : List String × DailyMap :=
  if s.verdict == "OK" then
    let problemKey := toString s.problem.contestId ++ s.problem.index
    let solved := setInsert problemKey st.1
    let solveDate := dateOf s.creationTimeSeconds
    (solved, dailyAdd solveDate ⟨problemKey, s.problem.name,
      jsOrStr s.problem.rating "Unrated"⟩ st.2)
  else st

/-- The solved-problem set and daily-solves map accumulated over all
submissions (platformAPI.js:286-308). -/
def cfSolved (dateOf : Nat → String) (submissions : List CFSubmission) :
    List String × DailyMap :=
  submissions.foldl (cfStep dateOf) ([], [])

/-- The second `submissions.forEach` loop (platformAPI.js:311-316): the set
of `contestId`s of submissions whose participant type is `CONTESTANT`. -/
def cfContests (submissions : List CFSubmission) : List Nat :=
  submissions.foldl
    (fun acc s =>
      if s.authorParticipantType == "CONTESTANT" then setInsert s.contestId acc
      else acc)
    []

/-- The fields of `user.info`'s result object that the method reads; `none`
models an absent field. -/
structure CFUserInfo where
  rating : Option Nat
  maxRating : Option Nat
deriving DecidableEq, Repr

/-- The two API responses consumed by `fetchCodeforcesProgress`: the
`status` strings and payloads of `user.info` and `user.status`. -/
structure CFOutcome where
  userInfoStatus : String
  userInfo : CFUserInfo
  submissionsStatus : String
  submissions : List CFSubmission
deriving DecidableEq, Repr

/-- The response object of `fetchCodeforcesProgress`
(platformAPI.js:318-338). `none` fields model keys absent from the
JavaScript object: the failure result carries only `success`, `error`,
`rating`, `problemsSolved` and `contests`. -/
structure CFResult where
  success : Bool
  error : Option String
  username : Option String
  rating : JsVal
  maxRating : Option JsVal
  problemsSolved : Nat
  contests : Nat
  dailySolves : Option DailyMap
  lastUpdated : Option String
deriving DecidableEq, Repr

/-- The `try` block of `fetchCodeforcesProgress` (platformAPI.js:260-327):
`.error` is a thrown error (a transport failure on input, or one of the two
explicit `throw new Error` status checks). -/
def cfBody (username : String) (dateOf : Nat → String) (now : String) :
    Except String CFOutcome → Except String CFResult
  | .error m => .error m
  | .ok o =>
    if o.userInfoStatus ≠ "OK" then .error "User not found on Codeforces"
    else
      let rating := jsOrStr o.userInfo.rating "Unrated"
      let maxRating := jsOrVal o.userInfo.maxRating rating
      if o.submissionsStatus ≠ "OK" then .error "Failed to fetch submissions"
      else
        let st := cfSolved dateOf o.submissions
        .ok
          { success := true
            error := none
            username := some username
            rating := rating
            maxRating := some maxRating
            problemsSolved := st.1.length
            contests := (cfContests o.submissions).length
            dailySolves := some st.2
            lastUpdated := some now }

/-- The `catch` result of `fetchCodeforcesProgress`
(platformAPI.js:329-338). -/
def cfFailure (m : String) : CFResult :=
  { success := false
    error := some m
    username := none
    rating := .str "Error"
    maxRating := none
    problemsSolved := 0
    contests := 0
    dailySolves := none
    lastUpdated := none }

/-- `fetchCodeforcesProgress` (platformAPI.js:259-339): run the body; any
thrown error is caught and turned into the failure result. -/
def fetchCodeforcesProgress (username : String) (dateOf : Nat → String)
    (now : String) (input : Except String CFOutcome) : CFResult :=
  match cfBody username dateOf now input with
  | .ok r => r
  | .error m => cfFailure m

/-- One accepted submission recorded by the VJudge recent-solves parser
(platformAPI.js:396-399). -/
structure VJEntry where
  problem : String
  timestamp : String
deriving DecidableEq, Repr

/-- The data parsed from the two VJudge pages (profile and submissions)
that `fetchVJudgeProgress` reads. -/
structure VJOutcome where
  solvedCount : Nat
  submittedCount : Nat
  dailyActivity : List (String × Nat)
  recentSolves : List (String × List VJEntry)
deriving DecidableEq, Repr

/-- The response object of `fetchVJudgeProgress` (platformAPI.js:403-420).
The failure result carries only `success`, `error` and `totalSolved`. -/
structure VJResult where
  success : Bool
  error : Option String
  username : Option String
  totalSolved : Nat
  totalSubmitted : Option Nat
  dailyActivity : Option (List (String × Nat))
  recentSolves : Option (List (String × List VJEntry))
  lastUpdated : Option String
deriving DecidableEq, Repr

/-- `fetchVJudgeProgress` (platformAPI.js:342-421): package the parsed
counts and maps, or turn a caught error into the failure result. -/
def fetchVJudgeProgress (username : String) (now : String) :
    Except String VJOutcome → VJResult
  | .ok o =>
    { success := true
      error := none
      username := some username
      totalSolved := o.solvedCount
      totalSubmitted := some o.submittedCount
      dailyActivity := some o.dailyActivity
      recentSolves := some o.recentSolves
      lastUpdated := some now }
  | .error m =>
    { success := false
      error := some m
      username := none
      totalSolved := 0
      totalSubmitted := none
      dailyActivity := none
      recentSolves := none
      lastUpdated := none }

/-- One topic entry handled by `fetchCSESTopics`. The scraped entries carry
no `description` (it is added when the success response is built); the
fallback entries carry one. The `problems` preview sublist of the scraped
entries is read by no claim and is not modelled. -/
structure Topic where
  title : String
  slug : String
  count : Nat
  url : String
  description : Option String
deriving DecidableEq, Repr

/-- `/[a-z]/i.test(title)`: the title contains an ASCII letter. -/
def hasLetter (s : String) : Bool :=
  s.any (fun ch => ch.isAlpha)

/-- The dedup-and-filter pass of `fetchCSESTopics` (platformAPI.js:105-110)
with its `seen` set explicit: drop an entry whose lower-cased title was
already seen or whose count is 0; otherwise mark the title seen and keep the
entry only if its title has a letter and is shorter than 60 characters.
(The title is marked seen even when the letter/length test then drops the
entry, exactly as the JavaScript closure does.) -/
def filterTopicsAux (seen : List String) : List Topic → List Topic
  | [] => []
  | t :: rest =>
    if seen.contains t.title.toLower || t.count == 0 then
      filterTopicsAux seen rest
    else if hasLetter t.title && t.title.length < 60 then
      t :: filterTopicsAux (t.title.toLower :: seen) rest
    else
      filterTopicsAux (t.title.toLower :: seen) rest

/-- The `filtered` list of `fetchCSESTopics` (platformAPI.js:105-110). -/
def filterTopics (topics : List Topic) : List Topic :=
  filterTopicsAux [] topics

/-- `getTopicDescription` (platformAPI.js:171-186). -/
def getTopicDescription (title : String) : String :=
  if title == "Introductory Problems" then "Basic programming problems to get started"
  else if title == "Sorting and Searching" then "Fundamental algorithms for sorting and searching"
  else if title == "Dynamic Programming" then "Optimization problems using DP techniques"
  else if title == "Graph Algorithms" then "Tree and graph traversal algorithms"
  else if title == "Range Queries" then "Efficient range query data structures"
  else if title == "Tree Algorithms" then "Advanced tree manipulation algorithms"
  else if title == "Mathematics" then "Number theory and mathematical problems"
  else if title == "String Algorithms" then "String processing and pattern matching"
  else if title == "Geometry" then "Computational geometry problems"
  else if title == "Advanced Techniques" then "Complex algorithmic techniques"
  else if title == "Additional Problems" then "Extra challenging problems"
  else "Programming problems and algorithms"

/-- The `url` local of `fetchCSESTopics`: `csesBaseUrl + '/problemset/'`. -/
def csesProblemsetUrl : String := "https://cses.fi/problemset/"

/-- The static fallback topic catalog of `fetchCSESTopics`, identical in the
parse-empty branch (platformAPI.js:122-134) and the catch branch
(platformAPI.js:153-165). -/
def fallbackTopics : List Topic :=
  [⟨"Introductory Problems", "introductory-problems", 19, csesProblemsetUrl,
    some "Basic programming problems to get started"⟩,
   ⟨"Sorting and Searching", "sorting-and-searching", 35, csesProblemsetUrl,
    some "Fundamental algorithms for sorting and searching"⟩,
   ⟨"Dynamic Programming", "dynamic-programming", 19, csesProblemsetUrl,
    some "Optimization problems using DP techniques"⟩,
   ⟨"Graph Algorithms", "graph-algorithms", 36, csesProblemsetUrl,
    some "Tree and graph traversal algorithms"⟩,
   ⟨"Range Queries", "range-queries", 19, csesProblemsetUrl,
    some "Efficient range query data structures"⟩,
   ⟨"Tree Algorithms", "tree-algorithms", 16, csesProblemsetUrl,
    some "Advanced tree manipulation algorithms"⟩,
   ⟨"Mathematics", "mathematics", 31, csesProblemsetUrl,
    some "Number theory and mathematical problems"⟩,
   ⟨"String Algorithms", "string-algorithms", 17, csesProblemsetUrl,
    some "String processing and pattern matching"⟩,
   ⟨"Geometry", "geometry", 7, csesProblemsetUrl,
    some "Computational geometry problems"⟩,
   ⟨"Advanced Techniques", "advanced-techniques", 24, csesProblemsetUrl,
    some "Complex algorithmic techniques"⟩,
   ⟨"Additional Problems", "additional-problems", 77, csesProblemsetUrl,
    some "Extra challenging problems"⟩]

/-- The response object of `fetchCSESTopics`. -/
structure TopicsResult where
  success : Bool
  fromCache : Option Bool
  error : Option String
  topics : List Topic
deriving DecidableEq, Repr

/-- `fetchCSESTopics` (platformAPI.js:12-168) from the scraped `topics`
array onward: filter and deduplicate; if nothing survives, return the
static fallback with `fromCache: true`; on a caught error, return the
fallback with `fromCache: true` and the error message; otherwise return the
filtered entries with descriptions added. -/
def fetchCSESTopics : Except String (List Topic) → TopicsResult
  | .ok topics =>
    let filtered := filterTopics topics
    if filtered.length == 0 then
      { success := true
        fromCache := some true
        error := none
        topics := fallbackTopics }
    else
      { success := true
        fromCache := none
        error := none
        topics := filtered.map
          (fun t => { t with description := some (getTopicDescription t.title) }) }
  | .error m =>
    { success := true
      fromCache := some true
      error := some m
      topics := fallbackTopics }

/-- The `usernames` argument of `syncAllPlatforms`: an optional handle per
platform (a missing or empty-string handle means the platform is not
requested; emptiness is falsy in the JavaScript guards). -/
structure Usernames where
  cses : Option String
  codeforces : Option String
  vjudge : Option String
deriving DecidableEq, Repr

/-- The combined `results` object returned by `syncAllPlatforms`
(platformAPI.js:427-432): `none` is the initial `null` of a platform that
was not requested. -/
structure SyncResults where
  cses : Option CSESResult
  codeforces : Option CFResult
  vjudge : Option VJResult
  syncTime : String
deriving DecidableEq, Repr

/-- `syncAllPlatforms` (platformAPI.js:424-462). Each requested platform's
fetch is started, its `.then` stores the resolved result into `results`,
and `Promise.allSettled` waits for every one to settle before `results` is
returned. Each fetcher always resolves (its body is wrapped in
`try/catch`), so a requested platform's slot holds exactly its fetch's
result and an unrequested platform's slot stays `null`. The fetchers are
passed as functions from handle to settled result. -/
def syncAllPlatforms (fetchCses : String → CSESResult)
    (fetchCf : String → CFResult) (fetchVj : String → VJResult)
    (now : String) (usernames : Usernames) : SyncResults :=
  { cses := usernames.cses.map fetchCses
    codeforces := usernames.codeforces.map fetchCf
    vjudge := usernames.vjudge.map fetchVj
    syncTime := now }

/-- `syncAllPlatforms` with the three fetchers of this module plugged in:
the per-platform environments give each handle's parsed payload (or caught
error), `dateOf` the calendar-date function and `now` the clock reading of
this invocation. -/
def fullSync (csesEnv : String → Except String (List SolvedProblem))
    (cfEnv : String → Except String CFOutcome)
    (vjEnv : String → Except String VJOutcome)
    (dateOf : Nat → String) (now : String) (usernames : Usernames) :
    SyncResults :=
  syncAllPlatforms
    (fun a => fetchCSESProgress now (csesEnv a))
    (fun b => fetchCodeforcesProgress b dateOf now (cfEnv b))
    (fun v => fetchVJudgeProgress v now (vjEnv v))
    now usernames

/-- A `CSESResult` with its clock-derived field blanked. -/
def CSESResult.stripTime (r : CSESResult) : CSESResult :=
  { r with lastUpdated := none }

/-- A `CFResult` with its clock-derived field blanked. -/
def CFResult.stripTime (r : CFResult) : CFResult :=
  { r with lastUpdated := none }

/-- A `VJResult` with its clock-derived field blanked. -/
def VJResult.stripTime (r : VJResult) : VJResult :=
  { r with lastUpdated := none }

/-- The non-clock content of a combined sync result: every field except
`syncTime` and the per-platform `lastUpdated` stamps. -/
def SyncResults.stripTimes (s : SyncResults) :
    Option CSESResult × Option CFResult × Option VJResult :=
  (s.cses.map CSESResult.stripTime, s.codeforces.map CFResult.stripTime,
   s.vjudge.map VJResult.stripTime)

end PlatformAPI

namespace Script

/-- One per-category record of `this.data.cses` in `script.js` (default
data, script.js:911-918): a `solved` counter and a fixed `total`. -/
structure CSESRecord where
  solved : Nat
  total : Nat
deriving DecidableEq, Repr

/-- `addCSESProblem` (script.js:1387-1398) acting on one category record:
if `solved < total`, increment `solved`; otherwise the method only shows a
"completed" notification and changes nothing. -/
def addCSESProblem (rec : CSESRecord) : CSESRecord :=
  if rec.solved < rec.total then { rec with solved := rec.solved + 1 } else rec

/-- `n` successive invocations of `addCSESProblem` on the same category. -/
def applyAdds : Nat → CSESRecord → CSESRecord
  | 0, rec => rec
  | n + 1, rec => applyAdds n (addCSESProblem rec)

end Script

namespace PlatformAPI

/-- The problems counted under category `c` by the categorization loop. -/
def catPred (c : Category) (p : SolvedProblem) : Bool :=
  categorizeCSESProblem p.id getCSESCategories == some c

/-- Every id mentioned anywhere in the static classification table. -/
def allTableIds : List Nat :=
  introIds ++ sortIds ++ dpIds ++ graphIds ++ rangeIds ++ treeIds

/-- The distinct ids that `categorizeCSESProblem` sends to category `c`:
the whole population a duplicate-free solved list can count there. -/
def catDomain (c : Category) : List Nat :=
  allTableIds.dedup.filter
    (fun id => categorizeCSESProblem id getCSESCategories == some c)

/-- The `categories` object of a CSES response, defaulting to the initial
counters when the key is absent. -/
def CSESResult.categoriesD (r : CSESResult) : CSESCategories :=
  r.categories.getD initCategories

/-- Lookup of one date key in a `dailySolves` map (absent date = `[]`,
matching a JavaScript read of a missing key against an empty list). -/
def dailyGet (m : DailyMap) (d : String) : List CFDailyEntry :=
  ((m.find? (fun e => e.1 == d)).map (fun e => e.2)).getD []

/-- Does the date `d` list of `m` contain an entry for problem key `k`? -/
def dailyHasKey (m : DailyMap) (d : String) (k : String) : Bool :=
  (dailyGet m d).any (fun e => e.key == k)

/-- Calendar-date function for the three-day Codeforces scenario: the
`toDateString` value of a timestamp, one date per 86400-second day. -/
def scenDateOf (t : Nat) : String :=
  if t < 86400 then "Mon Jan 01 2024"
  else if t < 172800 then "Tue Jan 02 2024"
  else "Wed Jan 03 2024"

/-- Problem (1700, A) of the scenario. -/
def scenProblemA : CFProblem := ⟨1700, "A", "Scenario Problem A", some 800⟩

/-- Problem (1700, B) of the scenario. -/
def scenProblemB : CFProblem := ⟨1700, "B", "Scenario Problem B", some 900⟩

/-- The scenario's `user.status` result array: three accepted submissions
for (1700, A) on three different calendar days and one accepted submission
for (1700, B) on the first day. -/
def scenSubs : List CFSubmission :=
  [⟨"OK", scenProblemA, 1000, "PRACTICE", 1700⟩,
   ⟨"OK", scenProblemB, 2000, "PRACTICE", 1700⟩,
   ⟨"OK", scenProblemA, 90000, "PRACTICE", 1700⟩,
   ⟨"OK", scenProblemA, 180000, "PRACTICE", 1700⟩]

/-- The scenario's pair of API responses, both with status `OK`. -/
def scenOutcome : CFOutcome := ⟨"OK", ⟨some 1500, some 1600⟩, "OK", scenSubs⟩

/-- `fetchCodeforcesProgress` on the scenario payload. -/
def scenResult : CFResult :=
  fetchCodeforcesProgress "scenariouser" scenDateOf
    "2024-01-04T00:00:00.000Z" (.ok scenOutcome)

/-- Written from the spec's words, for comparison with the code's contest
counter: the number of distinct `contestId` values among submissions whose
participant type is `CONTESTANT`. -/
def specContestCount (subs : List CFSubmission) : Nat :=
  ((subs.filter (fun s => s.authorParticipantType == "CONTESTANT")).map
    CFSubmission.contestId).dedup.length

end PlatformAPI

namespace PlatformAPI

lemma get_set (cats : CSESCategories) (c' : Category) (v : CatCounter)
    (c : Category) :
    (cats.set c' v).get c = if c' = c then v else cats.get c := by
  cases c' <;> cases c <;>
    simp [CSESCategories.set, CSESCategories.get]

lemma csesStep_get_solved (cats : CSESCategories) (p : SolvedProblem)
    (c : Category) :
    ((csesStep cats p).get c).solved =
      (cats.get c).solved + (if catPred c p then 1 else 0) := by
  unfold csesStep catPred
  cases h : categorizeCSESProblem p.id getCSESCategories with
  | none => simp [h]
  | some c' =>
    by_cases hc : c' = c
    · subst hc
      simp [h, get_set]
    · simp [h, get_set, hc]

lemma csesStep_get_total (cats : CSESCategories) (p : SolvedProblem)
    (c : Category) :
    ((csesStep cats p).get c).total = (cats.get c).total := by
  unfold csesStep
  cases h : categorizeCSESProblem p.id getCSESCategories with
  | none => rfl
  | some c' =>
    by_cases hc : c' = c
    · subst hc
      simp [get_set]
    · simp [get_set, hc]

lemma csesFold_get_solved (probs : List SolvedProblem) :
    ∀ (cats : CSESCategories) (c : Category),
      ((probs.foldl csesStep cats).get c).solved =
        (cats.get c).solved + probs.countP (catPred c) := by
  induction probs with
  | nil =>
    intro cats c
    rfl
  | cons p rest ih =>
    intro cats c
    rw [List.foldl_cons, ih, csesStep_get_solved, List.countP_cons]
    by_cases hp : catPred c p
    · simp [hp]
      omega
    · simp [hp]

lemma csesFold_get_total (probs : List SolvedProblem) :
    ∀ (cats : CSESCategories) (c : Category),
      ((probs.foldl csesStep cats).get c).total = (cats.get c).total := by
  induction probs with
  | nil =>
    intro cats c
    rfl
  | cons p rest ih =>
    intro cats c
    rw [List.foldl_cons, ih, csesStep_get_total]

lemma mem_catDomain_of_categorize {id : Nat} {c : Category}
    (h : categorizeCSESProblem id getCSESCategories = some c) :
    id ∈ catDomain c := by
  have hall : id ∈ allTableIds := by
    unfold categorizeCSESProblem at h
    cases hf : getCSESCategories.find? (fun e => e.2.contains id) with
    | none => rw [hf] at h; simp at h
    | some e =>
      have he := List.mem_of_find?_eq_some hf
      have hp := List.find?_some hf
      have hid : id ∈ e.2 := by
        rcases List.contains_iff_exists_mem_beq.mp hp with ⟨a, ha, hab⟩
        have : id = a := by simpa using hab
        subst this
        exact ha
      unfold getCSESCategories at he
      simp only [List.mem_cons, List.not_mem_nil, or_false] at he
      unfold allTableIds
      rcases he with rfl | rfl | rfl | rfl | rfl | rfl <;>
        simp only [List.mem_append] <;> tauto
  have : id ∈ allTableIds.dedup := List.mem_dedup.mpr hall
  exact List.mem_filter.mpr ⟨this, by simp [h]⟩

lemma countP_catPred_le (probs : List SolvedProblem)
    (hnd : (probs.map SolvedProblem.id).Nodup) (c : Category) :
    probs.countP (catPred c) ≤ (catDomain c).length := by
  rw [List.countP_eq_length_filter]
  have hsub : List.Sublist ((probs.filter (catPred c)).map SolvedProblem.id)
      (probs.map SolvedProblem.id) :=
    (List.filter_sublist probs).map SolvedProblem.id
  have hnodup : ((probs.filter (catPred c)).map SolvedProblem.id).Nodup :=
    hnd.sublist hsub
  have hsubset : (probs.filter (catPred c)).map SolvedProblem.id ⊆
      catDomain c := by
    intro x hx
    rcases List.mem_map.mp hx with ⟨p, hp, rfl⟩
    have hpred : catPred c p := (List.mem_filter.mp hp).2
    unfold catPred at hpred
    exact mem_catDomain_of_categorize (by simpa using hpred)
  have hle := (List.subperm_of_subset hnodup hsubset).length_le
  simpa using hle

lemma catDomain_le_total (c : Category) :
    (catDomain c).length ≤ (initCategories.get c).total := by
  cases c <;> decide

lemma initCategories_get_solved (c : Category) :
    (initCategories.get c).solved = 0 := by
  cases c <;> rfl

lemma dailyAdd_nodup_keys {d : String} {e : CFDailyEntry} :
    ∀ {m : DailyMap}, (∀ q ∈ m, (q.2.map CFDailyEntry.key).Nodup) →
      ∀ q ∈ dailyAdd d e m, (q.2.map CFDailyEntry.key).Nodup := by
  intro m
  induction m with
  | nil =>
    intro _ q hq
    rw [dailyAdd] at hq
    rcases List.mem_cons.mp hq with rfl | hq'
    · simp
    · simp at hq'
  | cons p rest ih =>
    rcases p with ⟨d', l⟩
    intro h q hq
    rw [dailyAdd] at hq
    split_ifs at hq with h1 h2
    · exact h q hq
    · rcases List.mem_cons.mp hq with rfl | hq'
      · have hl := h (d', l) (List.mem_cons_self _ _)
        simp only at hl ⊢
        rw [List.map_append]
        refine List.nodup_append.mpr ⟨hl, by simp, ?_⟩
        intro a ha hb
        simp only [List.map_cons, List.map_nil, List.mem_singleton] at hb
        subst hb
        rcases List.mem_map.mp ha with ⟨en, hen, hkey⟩
        exact h2 (List.any_eq_true.mpr ⟨en, hen, by simp [hkey]⟩)
      · exact h q (List.mem_cons_of_mem _ hq')
    · rcases List.mem_cons.mp hq with rfl | hq'
      · exact h _ (List.mem_cons_self _ _)
      · exact ih (fun r hr => h r (List.mem_cons_of_mem _ hr)) q hq'

lemma cfFold_daily_nodup_keys (dateOf : Nat → String)
    (subs : List CFSubmission) :
    ∀ st : List String × DailyMap,
      (∀ q ∈ st.2, (q.2.map CFDailyEntry.key).Nodup) →
      ∀ q ∈ (subs.foldl (cfStep dateOf) st).2,
        (q.2.map CFDailyEntry.key).Nodup := by
  induction subs with
  | nil =>
    intro st h q hq
    exact h q hq
  | cons s rest ih =>
    intro st h q hq
    rw [List.foldl_cons] at hq
    refine ih (cfStep dateOf st s) ?_ q hq
    unfold cfStep
    split
    · exact dailyAdd_nodup_keys h
    · exact h

lemma cfSolved_daily_nodup_keys (dateOf : Nat → String)
    (subs : List CFSubmission) :
    ∀ q ∈ (cfSolved dateOf subs).2, (q.2.map CFDailyEntry.key).Nodup :=
  cfFold_daily_nodup_keys dateOf subs ([], []) (by simp)

lemma mem_setInsert {α : Type} [DecidableEq α] (x y : α) (s : List α) :
    y ∈ setInsert x s ↔ y = x ∨ y ∈ s := by
  unfold setInsert
  split
  · rename_i hx
    constructor
    · exact Or.inr
    · rintro (rfl | hy)
      exacts [hx, hy]
  · simp [or_comm]

lemma setInsert_nodup {α : Type} [DecidableEq α] (x : α) {s : List α}
    (h : s.Nodup) : (setInsert x s).Nodup := by
  unfold setInsert
  split
  · exact h
  · rename_i hx
    refine List.nodup_append.mpr ⟨h, by simp, ?_⟩
    intro a ha hb
    simp only [List.mem_singleton] at hb
    subst hb
    exact hx ha

lemma cfContests_fold (subs : List CFSubmission) :
    ∀ (acc : List Nat) (c : Nat),
      (c ∈ subs.foldl
        (fun acc s =>
          if s.authorParticipantType == "CONTESTANT" then
            setInsert s.contestId acc
          else acc) acc ↔
        c ∈ acc ∨ ∃ s ∈ subs, s.authorParticipantType = "CONTESTANT" ∧
          s.contestId = c) := by
  induction subs with
  | nil =>
    intro acc c
    simp
  | cons s rest ih =>
    intro acc c
    rw [List.foldl_cons, ih]
    cases hb : (s.authorParticipantType == "CONTESTANT") with
    | true =>
      have hs : s.authorParticipantType = "CONTESTANT" := by simpa using hb
      simp only [hb, if_true, mem_setInsert, List.mem_cons]
      constructor
      · rintro ((rfl | hc) | ⟨t, ht, h1, h2⟩)
        · exact Or.inr ⟨s, Or.inl rfl, hs, rfl⟩
        · exact Or.inl hc
        · exact Or.inr ⟨t, Or.inr ht, h1, h2⟩
      · rintro (hc | ⟨t, ht, h1, h2⟩)
        · exact Or.inl (Or.inr hc)
        · rcases ht with rfl | ht'
          · exact Or.inl (Or.inl h2.symm)
          · exact Or.inr ⟨t, ht', h1, h2⟩
    | false =>
      have hs : ¬ s.authorParticipantType = "CONTESTANT" := by simpa using hb
      simp only [hb, if_false, List.mem_cons]
      constructor
      · rintro (hc | ⟨t, ht, h1, h2⟩)
        · exact Or.inl hc
        · exact Or.inr ⟨t, Or.inr ht, h1, h2⟩
      · rintro (hc | ⟨t, ht, h1, h2⟩)
        · exact Or.inl hc
        · rcases ht with rfl | ht'
          · exact absurd h1 hs
          · exact Or.inr ⟨t, ht', h1, h2⟩

lemma cfContests_fold_nodup (subs : List CFSubmission) :
    ∀ acc : List Nat, acc.Nodup →
      (subs.foldl
        (fun acc s =>
          if s.authorParticipantType == "CONTESTANT" then
            setInsert s.contestId acc
          else acc) acc).Nodup := by
  induction subs with
  | nil =>
    intro acc h
    exact h
  | cons s rest ih =>
    intro acc h
    rw [List.foldl_cons]
    refine ih _ ?_
    split
    · exact setInsert_nodup _ h
    · exact h

lemma mem_cfContests (subs : List CFSubmission) (c : Nat) :
    c ∈ cfContests subs ↔
      ∃ s ∈ subs, s.authorParticipantType = "CONTESTANT" ∧
        s.contestId = c := by
  rw [cfContests, cfContests_fold subs [] c]
  simp

lemma cfContests_nodup (subs : List CFSubmission) : (cfContests subs).Nodup :=
  cfContests_fold_nodup subs [] List.nodup_nil

lemma cfContests_length_eq_spec (subs : List CFSubmission) :
    (cfContests subs).length = specContestCount subs := by
  have hn1 := cfContests_nodup subs
  have hn2 : (((subs.filter
      (fun s => s.authorParticipantType == "CONTESTANT")).map
      CFSubmission.contestId).dedup).Nodup := List.nodup_dedup _
  have hmem : ∀ c, c ∈ cfContests subs ↔
      c ∈ ((subs.filter
        (fun s => s.authorParticipantType == "CONTESTANT")).map
        CFSubmission.contestId).dedup := by
    intro c
    rw [mem_cfContests, List.mem_dedup, List.mem_map]
    constructor
    · rintro ⟨s, hs, h1, h2⟩
      exact ⟨s, List.mem_filter.mpr ⟨hs, by simpa using h1⟩, h2⟩
    · rintro ⟨s, hs, h2⟩
      have hf := List.mem_filter.mp hs
      exact ⟨s, hf.1, by simpa using hf.2, h2⟩
  exact ((List.perm_ext_iff_of_nodup hn1 hn2).mpr hmem).length_eq

lemma cfBody_ok (username : String) (dateOf : Nat → String) (now : String)
    (o : CFOutcome) (h1 : o.userInfoStatus = "OK")
    (h2 : o.submissionsStatus = "OK") :
    cfBody username dateOf now (.ok o) = .ok
      { success := true
        error := none
        username := some username
        rating := jsOrStr o.userInfo.rating "Unrated"
        maxRating := some (jsOrVal o.userInfo.maxRating
          (jsOrStr o.userInfo.rating "Unrated"))
        problemsSolved := (cfSolved dateOf o.submissions).1.length
        contests := (cfContests o.submissions).length
        dailySolves := some (cfSolved dateOf o.submissions).2
        lastUpdated := some now } := by
  rcases o with ⟨s1, ui, s2, subs⟩
  simp only at h1 h2
  subst h1
  subst h2
  rfl

lemma cfBody_ok_success {username : String} {dateOf : Nat → String}
    {now : String} {input : Except String CFOutcome} {r : CFResult}
    (h : cfBody username dateOf now input = .ok r) : r.success = true := by
  cases input with
  | error m => exact absurd h (by simp [cfBody])
  | ok o =>
    rw [cfBody] at h
    split_ifs at h with h1 h2
    · injection h with h'
      rw [← h']

lemma cfBody_err_status1 (username : String) (dateOf : Nat → String)
    (now : String) (o : CFOutcome) (h : o.userInfoStatus ≠ "OK") :
    cfBody username dateOf now (.ok o) =
      .error "User not found on Codeforces" := by
  simp only [cfBody]
  rw [if_pos h]

lemma cfBody_err_status2 (username : String) (dateOf : Nat → String)
    (now : String) (o : CFOutcome) (h1 : o.userInfoStatus = "OK")
    (h2 : o.submissionsStatus ≠ "OK") :
    cfBody username dateOf now (.ok o) =
      .error "Failed to fetch submissions" := by
  simp only [cfBody]
  split_ifs with hc1
  · exact absurd h1 hc1
  · rfl

lemma fetchCSESProgress_stripTime (t1 t2 : String)
    (input : Except String (List SolvedProblem)) :
    (fetchCSESProgress t1 input).stripTime =
      (fetchCSESProgress t2 input).stripTime := by
  cases input <;> rfl

lemma fetchVJudgeProgress_stripTime (username t1 t2 : String)
    (input : Except String VJOutcome) :
    (fetchVJudgeProgress username t1 input).stripTime =
      (fetchVJudgeProgress username t2 input).stripTime := by
  cases input <;> rfl

lemma fetchCodeforcesProgress_stripTime (username : String)
    (dateOf : Nat → String) (t1 t2 : String)
    (input : Except String CFOutcome) :
    (fetchCodeforcesProgress username dateOf t1 input).stripTime =
      (fetchCodeforcesProgress username dateOf t2 input).stripTime := by
  cases input with
  | error m => rfl
  | ok o =>
    by_cases h1 : o.userInfoStatus = "OK"
    · by_cases h2 : o.submissionsStatus = "OK"
      · rw [fetchCodeforcesProgress, cfBody_ok username dateOf t1 o h1 h2,
          fetchCodeforcesProgress, cfBody_ok username dateOf t2 o h1 h2]
        rfl
      · rw [fetchCodeforcesProgress,
          cfBody_err_status2 username dateOf t1 o h1 h2,
          fetchCodeforcesProgress,
          cfBody_err_status2 username dateOf t2 o h1 h2]
    · rw [fetchCodeforcesProgress,
        cfBody_err_status1 username dateOf t1 o h1,
        fetchCodeforcesProgress,
        cfBody_err_status1 username dateOf t2 o h1]

lemma categorize_of_mem_intro {id : Nat} (h : id ∈ introIds) :
    categorizeCSESProblem id getCSESCategories = some .intro := by
  unfold categorizeCSESProblem getCSESCategories
  rw [List.find?_cons_of_pos _ (by simpa using h)]
  rfl

lemma categorize_of_mem_sort {id : Nat} (h1 : id ∉ introIds)
    (h : id ∈ sortIds) :
    categorizeCSESProblem id getCSESCategories = some .sort := by
  unfold categorizeCSESProblem getCSESCategories
  rw [List.find?_cons_of_neg _ (by simpa using h1),
    List.find?_cons_of_pos _ (by simpa using h)]
  rfl

lemma categorize_of_mem_dp {id : Nat} (h1 : id ∉ introIds)
    (h2 : id ∉ sortIds) (h : id ∈ dpIds) :
    categorizeCSESProblem id getCSESCategories = some .dp := by
  unfold categorizeCSESProblem getCSESCategories
  rw [List.find?_cons_of_neg _ (by simpa using h1),
    List.find?_cons_of_neg _ (by simpa using h2),
    List.find?_cons_of_pos _ (by simpa using h)]
  rfl

lemma categorize_of_mem_graph {id : Nat} (h1 : id ∉ introIds)
    (h2 : id ∉ sortIds) (h3 : id ∉ dpIds) (h : id ∈ graphIds) :
    categorizeCSESProblem id getCSESCategories = some .graph := by
  unfold categorizeCSESProblem getCSESCategories
  rw [List.find?_cons_of_neg _ (by simpa using h1),
    List.find?_cons_of_neg _ (by simpa using h2),
    List.find?_cons_of_neg _ (by simpa using h3),
    List.find?_cons_of_pos _ (by simpa using h)]
  rfl

lemma categorize_of_mem_range {id : Nat} (h1 : id ∉ introIds)
    (h2 : id ∉ sortIds) (h3 : id ∉ dpIds) (h4 : id ∉ graphIds)
    (h : id ∈ rangeIds) :
    categorizeCSESProblem id getCSESCategories = some .range := by
  unfold categorizeCSESProblem getCSESCategories
  rw [List.find?_cons_of_neg _ (by simpa using h1),
    List.find?_cons_of_neg _ (by simpa using h2),
    List.find?_cons_of_neg _ (by simpa using h3),
    List.find?_cons_of_neg _ (by simpa using h4),
    List.find?_cons_of_pos _ (by simpa using h)]
  rfl

end PlatformAPI

namespace Script

lemma addCSESProblem_le {rec : CSESRecord} (h : rec.solved ≤ rec.total) :
    (addCSESProblem rec).solved ≤ (addCSESProblem rec).total := by
  unfold addCSESProblem
  split
  · rename_i hlt
    exact hlt
  · exact h

lemma applyAdds_le (n : Nat) :
    ∀ {rec : CSESRecord}, rec.solved ≤ rec.total →
      (applyAdds n rec).solved ≤ (applyAdds n rec).total := by
  induction n with
  | zero =>
    intro rec h
    exact h
  | succ m ih =>
    intro rec h
    exact ih (addCSESProblem_le h)

end Script

open PlatformAPI in
/-- C1 (counterexample). The claim fails for the category counters produced
by `fetchCSESProgress`: the sync's categorization loop has no cap, so a
parsed profile payload repeating problem 1068 twenty times drives the
`intro` counter to 20, past its total of 19 — no no-op step intervenes. -/
theorem claim1_counterexample :
    ((fetchCSESProgress "2024-01-01T00:00:00.000Z"
        (.ok (List.replicate 20 ⟨"Weird Algorithm", 1068⟩))).categoriesD.intro.solved
      = 20) ∧
    ((fetchCSESProgress "2024-01-01T00:00:00.000Z"
        (.ok (List.replicate 20 ⟨"Weird Algorithm", 1068⟩))).categoriesD.intro.total
      = 19) :=
  ⟨rfl, rfl⟩

open PlatformAPI in
/-- C1 (amended). `addCSESProblem` preserves `solved ≤ total` over any
number of additions and is a no-op when `solved = total`; the category
counters produced by `fetchCSESProgress` satisfy `solved ≤ total` whenever
the parsed solved-problem ids are pairwise distinct (the sync itself
applies no cap, so this rests on the classification table, not a guard). -/
theorem claim1_amended :
    (∀ rec : Script.CSESRecord, rec.solved ≤ rec.total →
      ∀ n : Nat, (Script.applyAdds n rec).solved ≤ (Script.applyAdds n rec).total) ∧
    (∀ rec : Script.CSESRecord, rec.solved = rec.total →
      Script.addCSESProblem rec = rec) ∧
    (∀ probs : List SolvedProblem, (probs.map SolvedProblem.id).Nodup →
      ∀ c : Category,
        ((csesCategorize probs).get c).solved ≤
          ((csesCategorize probs).get c).total) := by
  refine ⟨fun rec h n => Script.applyAdds_le n h, fun rec h => ?_, ?_⟩
  · unfold Script.addCSESProblem
    have : ¬ rec.solved < rec.total := by omega
    simp [this]
  · intro probs hnd c
    rw [csesCategorize, csesFold_get_solved, csesFold_get_total,
      initCategories_get_solved]
    have h1 := countP_catPred_le probs hnd c
    have h2 := catDomain_le_total c
    omega

open PlatformAPI in
/-- C1 (witness): the amended claim applied at concrete inputs. -/
theorem claim1_witness :
    (Script.applyAdds 25 ⟨3, 19⟩).solved ≤ (Script.applyAdds 25 ⟨3, 19⟩).total ∧
    Script.addCSESProblem ⟨16, 16⟩ = ⟨16, 16⟩ ∧
    ((csesCategorize [⟨"a", 1619⟩, ⟨"b", 1097⟩]).get .sort).solved ≤
      ((csesCategorize [⟨"a", 1619⟩, ⟨"b", 1097⟩]).get .sort).total :=
  ⟨claim1_amended.1 ⟨3, 19⟩ (by decide) 25,
   claim1_amended.2.1 ⟨16, 16⟩ rfl,
   claim1_amended.2.2 [⟨"a", 1619⟩, ⟨"b", 1097⟩] (by decide) .sort⟩

open PlatformAPI in
/-- C2. For every id contained in some bucket of the static table,
`categorizeCSESProblem` returns a category whose bucket contains the id;
for an id absent from every bucket it returns `none`. -/
theorem claim2 (id : Nat) :
    ((∃ e ∈ getCSESCategories, id ∈ e.2) →
      ∃ c : Category, categorizeCSESProblem id getCSESCategories = some c ∧
        ∃ e ∈ getCSESCategories, e.1 = c ∧ id ∈ e.2) ∧
    ((∀ e ∈ getCSESCategories, id ∉ e.2) →
      categorizeCSESProblem id getCSESCategories = none) := by
  constructor
  · rintro ⟨e, he, hid⟩
    have hsome : (getCSESCategories.find? (fun e => e.2.contains id)).isSome := by
      rw [List.find?_isSome]
      exact ⟨e, he, by simpa using hid⟩
    rcases Option.isSome_iff_exists.mp hsome with ⟨e', hf⟩
    have hc : categorizeCSESProblem id getCSESCategories = some e'.1 := by
      unfold categorizeCSESProblem
      rw [hf]
      rfl
    refine ⟨e'.1, hc, e', List.mem_of_find?_eq_some hf, rfl, ?_⟩
    have := List.find?_some hf
    simpa using this
  · intro h
    have hn : getCSESCategories.find? (fun e => e.2.contains id) = none := by
      rw [List.find?_eq_none]
      intro e he
      simpa using h e he
    unfold categorizeCSESProblem
    rw [hn]
    rfl

open PlatformAPI in
/-- C2 (witness): the classifier at id 1619 (present, classified into a
bucket containing it) and id 9999 (absent from every bucket, `none`). -/
theorem claim2_witness :
    (∃ c : Category, categorizeCSESProblem 1619 getCSESCategories = some c ∧
      ∃ e ∈ getCSESCategories, e.1 = c ∧ 1619 ∈ e.2) ∧
    categorizeCSESProblem 9999 getCSESCategories = none :=
  ⟨(claim2 1619).1 ⟨(.intro, introIds), by decide, by decide⟩,
   (claim2 9999).2 (by decide)⟩

open PlatformAPI in
/-- C9. `categorizeCSESProblem` resolves ids that sit in several buckets to
the first bucket in the fixed entry order intro, sort, dp, graph, range,
tree: whenever it answers a later category, the id is in none of the
earlier buckets; and on the three overlapping ids 1619 (intro ∩ sort),
1097 (sort ∩ dp) and 1674 (graph ∩ tree) it answers the earlier bucket. -/
theorem claim9 :
    (∀ id : Nat, categorizeCSESProblem id getCSESCategories = some .sort →
      id ∉ introIds) ∧
    (∀ id : Nat, categorizeCSESProblem id getCSESCategories = some .dp →
      id ∉ introIds ∧ id ∉ sortIds) ∧
    (∀ id : Nat, categorizeCSESProblem id getCSESCategories = some .graph →
      id ∉ introIds ∧ id ∉ sortIds ∧ id ∉ dpIds) ∧
    (∀ id : Nat, categorizeCSESProblem id getCSESCategories = some .range →
      id ∉ introIds ∧ id ∉ sortIds ∧ id ∉ dpIds ∧ id ∉ graphIds) ∧
    (∀ id : Nat, categorizeCSESProblem id getCSESCategories = some .tree →
      id ∉ introIds ∧ id ∉ sortIds ∧ id ∉ dpIds ∧ id ∉ graphIds ∧
        id ∉ rangeIds) ∧
    (categorizeCSESProblem 1619 getCSESCategories = some .intro ∧
      1619 ∈ sortIds) ∧
    (categorizeCSESProblem 1097 getCSESCategories = some .sort ∧
      1097 ∈ dpIds) ∧
    (categorizeCSESProblem 1674 getCSESCategories = some .graph ∧
      1674 ∈ treeIds) := by
  have hIntro : ∀ {id : Nat} {c : Category},
      categorizeCSESProblem id getCSESCategories = some c → c ≠ .intro →
        id ∉ introIds := by
    intro id c h hc hm
    rw [categorize_of_mem_intro hm] at h
    exact hc (Option.some.inj h).symm
  have hSort : ∀ {id : Nat} {c : Category},
      categorizeCSESProblem id getCSESCategories = some c → c ≠ .intro →
        c ≠ .sort → id ∉ sortIds := by
    intro id c h hc1 hc2 hm
    exact hc2 (Option.some.inj
      ((categorize_of_mem_sort (hIntro h hc1) hm).symm.trans h)).symm
  have hDp : ∀ {id : Nat} {c : Category},
      categorizeCSESProblem id getCSESCategories = some c → c ≠ .intro →
        c ≠ .sort → c ≠ .dp → id ∉ dpIds := by
    intro id c h hc1 hc2 hc3 hm
    exact hc3 (Option.some.inj
      ((categorize_of_mem_dp (hIntro h hc1) (hSort h hc1 hc2)
        hm).symm.trans h)).symm
  have hGraph : ∀ {id : Nat} {c : Category},
      categorizeCSESProblem id getCSESCategories = some c → c ≠ .intro →
        c ≠ .sort → c ≠ .dp → c ≠ .graph → id ∉ graphIds := by
    intro id c h hc1 hc2 hc3 hc4 hm
    exact hc4 (Option.some.inj
      ((categorize_of_mem_graph (hIntro h hc1) (hSort h hc1 hc2)
        (hDp h hc1 hc2 hc3) hm).symm.trans h)).symm
  have hRange : ∀ {id : Nat} {c : Category},
      categorizeCSESProblem id getCSESCategories = some c → c ≠ .intro →
        c ≠ .sort → c ≠ .dp → c ≠ .graph → c ≠ .range → id ∉ rangeIds := by
    intro id c h hc1 hc2 hc3 hc4 hc5 hm
    exact hc5 (Option.some.inj
      ((categorize_of_mem_range (hIntro h hc1) (hSort h hc1 hc2)
        (hDp h hc1 hc2 hc3) (hGraph h hc1 hc2 hc3 hc4) hm).symm.trans h)).symm
  refine ⟨fun id h => hIntro h (by decide),
    fun id h => ⟨hIntro h (by decide), hSort h (by decide) (by decide)⟩,
    fun id h => ⟨hIntro h (by decide), hSort h (by decide) (by decide),
      hDp h (by decide) (by decide) (by decide)⟩,
    fun id h => ⟨hIntro h (by decide), hSort h (by decide) (by decide),
      hDp h (by decide) (by decide) (by decide),
      hGraph h (by decide) (by decide) (by decide) (by decide)⟩,
    fun id h => ⟨hIntro h (by decide), hSort h (by decide) (by decide),
      hDp h (by decide) (by decide) (by decide),
      hGraph h (by decide) (by decide) (by decide) (by decide),
      hRange h (by decide) (by decide) (by decide) (by decide) (by decide)⟩,
    ⟨by decide, by decide⟩, ⟨by decide, by decide⟩, ⟨by decide, by decide⟩⟩

open PlatformAPI in
/-- C9 (witness): the first-match property applied at id 1097, which the
classifier sends to `sort`, so it lies outside the `intro` bucket. -/
theorem claim9_witness : (1097 : Nat) ∉ introIds :=
  claim9.1 1097 (by decide)

open PlatformAPI in
/-- C3 (counterexample). On the three-day payload the solved count is 2 as
claimed, but `dailySolves` deduplicates per date only: problem (1700, A)
also appears under the second and third calendar dates, not only under the
date of its first accepted submission. -/
theorem claim3_counterexample :
    scenResult.problemsSolved = 2 ∧
    dailyHasKey (scenResult.dailySolves.getD []) "Mon Jan 01 2024" "1700A"
      = true ∧
    dailyHasKey (scenResult.dailySolves.getD []) "Tue Jan 02 2024" "1700A"
      = true ∧
    dailyHasKey (scenResult.dailySolves.getD []) "Wed Jan 03 2024" "1700A"
      = true :=
  ⟨rfl, rfl, rfl, rfl⟩

open PlatformAPI in
/-- C3 (amended). On the scenario payload `fetchCodeforcesProgress` reports
`problemsSolved = 2` (unique problems), and `dailySolves` lists (1700, A)
once under each of its three accepted dates — deduplication is per date,
never global — while within any single date's list, for any payload, a
problem key never appears twice. -/
theorem claim3_amended :
    scenResult.problemsSolved = 2 ∧
    scenResult.dailySolves = some
      [("Mon Jan 01 2024",
        [⟨"1700A", "Scenario Problem A", .num 800⟩,
         ⟨"1700B", "Scenario Problem B", .num 900⟩]),
       ("Tue Jan 02 2024", [⟨"1700A", "Scenario Problem A", .num 800⟩]),
       ("Wed Jan 03 2024", [⟨"1700A", "Scenario Problem A", .num 800⟩])] ∧
    (∀ (dateOf : Nat → String) (subs : List CFSubmission),
      ∀ q ∈ (cfSolved dateOf subs).2, (q.2.map CFDailyEntry.key).Nodup) :=
  ⟨rfl, rfl, fun dateOf subs => cfSolved_daily_nodup_keys dateOf subs⟩

open PlatformAPI in
/-- C3 (witness): the per-date deduplication statement applied to the
scenario payload's first date list. -/
theorem claim3_amended_witness :
    (["1700A", "1700B"] : List String).Nodup := by
  have h := claim3_amended.2.2 scenDateOf scenSubs
    ("Mon Jan 01 2024",
      [⟨"1700A", "Scenario Problem A", .num 800⟩,
       ⟨"1700B", "Scenario Problem B", .num 900⟩])
    (by decide)
  exact h

open PlatformAPI in
/-- C7. For every payload whose two API statuses are `OK`, the `contests`
counter reported by `fetchCodeforcesProgress` equals the number of distinct
`contestId` values having at least one submission with participant type
`CONTESTANT`: the accumulated contest set is duplicate-free and holds
exactly those ids, so each is counted once however many contestant
submissions it has, and contests with only practice or virtual submissions
contribute nothing. -/
theorem claim7 (username : String) (dateOf : Nat → String) (now : String)
    (o : CFOutcome) (h1 : o.userInfoStatus = "OK")
    (h2 : o.submissionsStatus = "OK") :
    (fetchCodeforcesProgress username dateOf now (.ok o)).contests
      = specContestCount o.submissions ∧
    (cfContests o.submissions).Nodup ∧
    (∀ c : Nat, c ∈ cfContests o.submissions ↔
      ∃ s ∈ o.submissions, s.authorParticipantType = "CONTESTANT" ∧
        s.contestId = c) := by
  refine ⟨?_, cfContests_nodup o.submissions, mem_cfContests o.submissions⟩
  rw [fetchCodeforcesProgress, cfBody_ok username dateOf now o h1 h2]
  exact cfContests_length_eq_spec o.submissions

open PlatformAPI in
/-- C7 (witness): a payload with two contestant submissions in contest 1,
one rejected contestant submission in the same contest and a practice
submission in contest 2 yields a contest count of 1. -/
theorem claim7_witness :
    (fetchCodeforcesProgress "u" (fun _ => "D") "t"
      (.ok ⟨"OK", ⟨none, none⟩, "OK",
        [⟨"OK", ⟨1, "A", "p", none⟩, 0, "CONTESTANT", 1⟩,
         ⟨"WRONG_ANSWER", ⟨1, "B", "q", none⟩, 5, "CONTESTANT", 1⟩,
         ⟨"OK", ⟨2, "A", "r", none⟩, 9, "PRACTICE", 2⟩]⟩)).contests
      = specContestCount
        [⟨"OK", ⟨1, "A", "p", none⟩, 0, "CONTESTANT", 1⟩,
         ⟨"WRONG_ANSWER", ⟨1, "B", "q", none⟩, 5, "CONTESTANT", 1⟩,
         ⟨"OK", ⟨2, "A", "r", none⟩, 9, "PRACTICE", 2⟩] ∧
    specContestCount
        [⟨"OK", ⟨1, "A", "p", none⟩, 0, "CONTESTANT", 1⟩,
         ⟨"WRONG_ANSWER", ⟨1, "B", "q", none⟩, 5, "CONTESTANT", 1⟩,
         ⟨"OK", ⟨2, "A", "r", none⟩, 9, "PRACTICE", 2⟩] = 1 :=
  ⟨(claim7 "u" (fun _ => "D") "t" ⟨"OK", ⟨none, none⟩, "OK",
      [⟨"OK", ⟨1, "A", "p", none⟩, 0, "CONTESTANT", 1⟩,
       ⟨"WRONG_ANSWER", ⟨1, "B", "q", none⟩, 5, "CONTESTANT", 1⟩,
       ⟨"OK", ⟨2, "A", "r", none⟩, 9, "PRACTICE", 2⟩]⟩ rfl rfl).1,
   by decide⟩

open PlatformAPI in
/-- C4. When the CSES fetch fails and the Codeforces fetch succeeds inside
one `syncAllPlatforms` call, the combined result keeps the failed
platform's entry (`success = false` with the caught message and zeroed
fields), carries the succeeding platform's own result unaltered with
`success = true`, and the remaining platform's slot is exactly its own
settled fetch (or `null` when not requested); nothing is omitted. -/
theorem claim4 (csesEnv : String → Except String (List SolvedProblem))
    (cfEnv : String → Except String CFOutcome)
    (vjEnv : String → Except String VJOutcome)
    (dateOf : Nat → String) (now : String) (u : Usernames)
    (a b m : String) (r : CFResult)
    (ha : u.cses = some a) (hfail : csesEnv a = .error m)
    (hb : u.codeforces = some b)
    (hok : cfBody b dateOf now (cfEnv b) = .ok r) :
    (fullSync csesEnv cfEnv vjEnv dateOf now u).cses =
      some ⟨false, some m, 0, none, none⟩ ∧
    (fullSync csesEnv cfEnv vjEnv dateOf now u).codeforces = some r ∧
    r.success = true ∧
    (fullSync csesEnv cfEnv vjEnv dateOf now u).vjudge =
      u.vjudge.map (fun v => fetchVJudgeProgress v now (vjEnv v)) ∧
    (fullSync csesEnv cfEnv vjEnv dateOf now u).syncTime = now := by
  refine ⟨?_, ?_, cfBody_ok_success hok, rfl, rfl⟩
  · show (u.cses.map (fun x => fetchCSESProgress now (csesEnv x))) = _
    rw [ha, Option.map_some', hfail]
    rfl
  · show (u.codeforces.map
      (fun x => fetchCodeforcesProgress x dateOf now (cfEnv x))) = _
    rw [hb, Option.map_some', fetchCodeforcesProgress, hok]

open PlatformAPI in
/-- C4 (witness): concrete environments where CSES rejects, Codeforces
succeeds with an empty submission list and VJudge is not requested. -/
theorem claim4_witness :
    (fullSync (fun _ => .error "cses down")
      (fun _ => .ok ⟨"OK", ⟨some 1500, some 1600⟩, "OK", []⟩)
      (fun _ => .error "unused") (fun _ => "D") "T"
      ⟨some "alice", some "bob", none⟩).cses =
        some ⟨false, some "cses down", 0, none, none⟩ ∧
    (fullSync (fun _ => .error "cses down")
      (fun _ => .ok ⟨"OK", ⟨some 1500, some 1600⟩, "OK", []⟩)
      (fun _ => .error "unused") (fun _ => "D") "T"
      ⟨some "alice", some "bob", none⟩).codeforces =
        some ⟨true, none, some "bob", .num 1500, some (.num 1600), 0, 0,
          some [], some "T"⟩ :=
  have h := claim4 (fun _ => .error "cses down")
    (fun _ => .ok ⟨"OK", ⟨some 1500, some 1600⟩, "OK", []⟩)
    (fun _ => .error "unused") (fun _ => "D") "T"
    ⟨some "alice", some "bob", none⟩ "alice" "bob" "cses down"
    ⟨true, none, some "bob", .num 1500, some (.num 1600), 0, 0,
      some [], some "T"⟩ rfl rfl rfl rfl
  ⟨h.1, h.2.1⟩

open PlatformAPI in
/-- C5. Every per-platform fetch resolves to a plain response object: a
caught failure yields `success = false` with the error message and the
platform's zeroed default fields (never a thrown error), every outcome
yields either a success response or such a failure response, and the full
sync always resolves to a combined `results` object whose slots are the
constituent settled results — even when every platform fails. -/
theorem claim5 :
    (∀ now m : String, fetchCSESProgress now (.error m) =
      ⟨false, some m, 0, none, none⟩) ∧
    (∀ (username : String) (dateOf : Nat → String) (now m : String)
      (input : Except String CFOutcome),
      cfBody username dateOf now input = .error m →
      fetchCodeforcesProgress username dateOf now input = cfFailure m) ∧
    (∀ username now m : String, fetchVJudgeProgress username now (.error m) =
      ⟨false, some m, none, 0, none, none, none, none⟩) ∧
    (∀ (now : String) (input : Except String (List SolvedProblem)),
      (fetchCSESProgress now input).success = true ∨
      ((fetchCSESProgress now input).success = false ∧
        ∃ m, (fetchCSESProgress now input).error = some m)) ∧
    (∀ (username : String) (dateOf : Nat → String) (now : String)
      (input : Except String CFOutcome),
      (fetchCodeforcesProgress username dateOf now input).success = true ∨
      ((fetchCodeforcesProgress username dateOf now input).success = false ∧
        ∃ m, (fetchCodeforcesProgress username dateOf now input).error
          = some m)) ∧
    (∀ (username now : String) (input : Except String VJOutcome),
      (fetchVJudgeProgress username now input).success = true ∨
      ((fetchVJudgeProgress username now input).success = false ∧
        ∃ m, (fetchVJudgeProgress username now input).error = some m)) ∧
    (∀ (csesEnv : String → Except String (List SolvedProblem))
      (cfEnv : String → Except String CFOutcome)
      (vjEnv : String → Except String VJOutcome)
      (dateOf : Nat → String) (now : String) (u : Usernames),
      (fullSync csesEnv cfEnv vjEnv dateOf now u).syncTime = now ∧
      (fullSync csesEnv cfEnv vjEnv dateOf now u).cses =
        u.cses.map (fun x => fetchCSESProgress now (csesEnv x)) ∧
      (fullSync csesEnv cfEnv vjEnv dateOf now u).codeforces =
        u.codeforces.map
          (fun x => fetchCodeforcesProgress x dateOf now (cfEnv x)) ∧
      (fullSync csesEnv cfEnv vjEnv dateOf now u).vjudge =
        u.vjudge.map (fun x => fetchVJudgeProgress x now (vjEnv x))) := by
  refine ⟨fun now m => rfl, ?_, fun username now m => rfl, ?_, ?_, ?_,
    fun csesEnv cfEnv vjEnv dateOf now u => ⟨rfl, rfl, rfl, rfl⟩⟩
  · intro username dateOf now m input h
    rw [fetchCodeforcesProgress, h]
  · intro now input
    cases input with
    | ok probs => exact Or.inl rfl
    | error m => exact Or.inr ⟨rfl, m, rfl⟩
  · intro username dateOf now input
    cases hb : cfBody username dateOf now input with
    | ok r =>
      rw [fetchCodeforcesProgress, hb]
      exact Or.inl (cfBody_ok_success hb)
    | error m =>
      rw [fetchCodeforcesProgress, hb]
      exact Or.inr ⟨rfl, m, rfl⟩
  · intro username now input
    cases input with
    | ok o => exact Or.inl rfl
    | error m => exact Or.inr ⟨rfl, m, rfl⟩

open PlatformAPI in
/-- C5 (witness): the failure shapes at concrete error messages and the
full-sync totality at concrete all-failing environments. -/
theorem claim5_witness :
    fetchCodeforcesProgress "u" (fun _ => "D") "T" (.error "network down") =
      cfFailure "network down" ∧
    (fullSync (fun _ => .error "e1") (fun _ => .error "e2")
      (fun _ => .error "e3") (fun _ => "D") "T"
      ⟨some "a", some "b", some "c"⟩).syncTime = "T" :=
  ⟨claim5.2.1 "u" (fun _ => "D") "T" "network down" (.error "network down")
      rfl,
   (claim5.2.2.2.2.2.2 (fun _ => .error "e1") (fun _ => .error "e2")
      (fun _ => .error "e3") (fun _ => "D") "T"
      ⟨some "a", some "b", some "c"⟩).1⟩

open PlatformAPI in
/-- C6. When the filter over the scraped topics keeps nothing (in
particular for an unparseable document yielding no topics), and when the
fetch itself errors, `fetchCSESTopics` returns `success = true`,
`fromCache = true` and exactly the static fallback catalog — an 11-entry
list, never empty and never a thrown error — with `error` set only in the
transport-error case. -/
theorem claim6 :
    (∀ topics : List Topic, filterTopics topics = [] →
      fetchCSESTopics (.ok topics) = ⟨true, some true, none, fallbackTopics⟩) ∧
    (∀ m : String, fetchCSESTopics (.error m) =
      ⟨true, some true, some m, fallbackTopics⟩) ∧
    fallbackTopics.length = 11 := by
  refine ⟨?_, fun m => rfl, rfl⟩
  intro topics h
  simp only [fetchCSESTopics, h]
  rfl

open PlatformAPI in
/-- C6 (witness): the fallback responses at the empty topic list and at a
concrete transport error. -/
theorem claim6_witness :
    fetchCSESTopics (.ok []) = ⟨true, some true, none, fallbackTopics⟩ ∧
    fetchCSESTopics (.error "timeout of 20000ms exceeded") =
      ⟨true, some true, some "timeout of 20000ms exceeded",
        fallbackTopics⟩ :=
  ⟨claim6.1 [] rfl, claim6.2.1 "timeout of 20000ms exceeded"⟩

open PlatformAPI in
/-- C8 (counterexample). Two invocations of the aggregation on identical
intermediate records but different clock readings are not byte-identical:
the `syncTime` stamp (and the per-platform `lastUpdated` stamps) come from
the clock, which is not part of the intermediate records. -/
theorem claim8_counterexample :
    fullSync (fun _ => .error "e") (fun _ => .error "e")
        (fun _ => .error "e") (fun _ => "D")
        "2024-01-01T00:00:00.000Z" ⟨none, none, none⟩ ≠
      fullSync (fun _ => .error "e") (fun _ => .error "e")
        (fun _ => .error "e") (fun _ => "D")
        "2024-01-01T00:00:01.000Z" ⟨none, none, none⟩ := by
  decide

open PlatformAPI in
/-- C8 (amended). Re-aggregating identical intermediate records is
idempotent up to the clock: every field except the clock-derived
`syncTime` and `lastUpdated` stamps is byte-identical across the two
invocations, and with the clock reading fixed the whole results coincide. -/
theorem claim8_amended (csesEnv : String → Except String (List SolvedProblem))
    (cfEnv : String → Except String CFOutcome)
    (vjEnv : String → Except String VJOutcome)
    (dateOf : Nat → String) (t1 t2 : String) (u : Usernames) :
    (fullSync csesEnv cfEnv vjEnv dateOf t1 u).stripTimes =
      (fullSync csesEnv cfEnv vjEnv dateOf t2 u).stripTimes ∧
    (t1 = t2 → fullSync csesEnv cfEnv vjEnv dateOf t1 u =
      fullSync csesEnv cfEnv vjEnv dateOf t2 u) := by
  constructor
  · rcases u with ⟨uc, uf, uv⟩
    cases uc <;> cases uf <;> cases uv <;>
      simp [fullSync, syncAllPlatforms, SyncResults.stripTimes,
        fetchCSESProgress_stripTime t1 t2,
        fetchCodeforcesProgress_stripTime _ dateOf t1 t2,
        fetchVJudgeProgress_stripTime _ t1 t2]
  · intro h
    rw [h]

open PlatformAPI in
/-- C8 (witness): the clock-stripped agreement applied at concrete
environments and usernames, and full equality at an equal clock. -/
theorem claim8_witness :
    (fullSync (fun _ => .ok [⟨"Weird Algorithm", 1068⟩])
      (fun _ => .error "cf down") (fun _ => .error "vj down")
      (fun _ => "D") "T1" ⟨some "a", some "b", none⟩).stripTimes =
    (fullSync (fun _ => .ok [⟨"Weird Algorithm", 1068⟩])
      (fun _ => .error "cf down") (fun _ => .error "vj down")
      (fun _ => "D") "T2" ⟨some "a", some "b", none⟩).stripTimes :=
  (claim8_amended (fun _ => .ok [⟨"Weird Algorithm", 1068⟩])
    (fun _ => .error "cf down") (fun _ => .error "vj down")
    (fun _ => "D") "T1" "T2" ⟨some "a", some "b", none⟩).1

open PlatformAPI in
/-- C10. Whenever the body of `fetchCodeforcesProgress` throws (transport
failure or a non-OK API status), the resolved result is exactly
`{success: false, error: <message>, rating: "Error", problemsSolved: 0,
contests: 0}`: the rating is the literal string `"Error"` — not a number
and not `"Unrated"` — and the `maxRating`, `dailySolves` and `lastUpdated`
keys are absent. -/
theorem claim10 (username : String) (dateOf : Nat → String) (now m : String)
    (input : Except String CFOutcome)
    (h : cfBody username dateOf now input = .error m) :
    fetchCodeforcesProgress username dateOf now input = cfFailure m ∧
    (fetchCodeforcesProgress username dateOf now input).success = false ∧
    (fetchCodeforcesProgress username dateOf now input).error = some m ∧
    (fetchCodeforcesProgress username dateOf now input).rating =
      .str "Error" ∧
    (fetchCodeforcesProgress username dateOf now input).rating ≠
      .str "Unrated" ∧
    (∀ n : Nat,
      (fetchCodeforcesProgress username dateOf now input).rating ≠ .num n) ∧
    (fetchCodeforcesProgress username dateOf now input).problemsSolved = 0 ∧
    (fetchCodeforcesProgress username dateOf now input).contests = 0 ∧
    (fetchCodeforcesProgress username dateOf now input).maxRating = none ∧
    (fetchCodeforcesProgress username dateOf now input).dailySolves = none ∧
    (fetchCodeforcesProgress username dateOf now input).lastUpdated
      = none := by
  have hr : fetchCodeforcesProgress username dateOf now input =
      cfFailure m := by
    rw [fetchCodeforcesProgress, h]
  rw [hr]
  exact ⟨rfl, rfl, rfl, rfl,
    fun h' => absurd (JsVal.str.inj h') (by decide),
    fun n h' => JsVal.noConfusion h', rfl, rfl, rfl, rfl, rfl⟩

open PlatformAPI in
/-- C10 (witness): the failure shape at a payload whose `user.info` status
is not `OK`, which throws "User not found on Codeforces". -/
theorem claim10_witness :
    fetchCodeforcesProgress "ghost" (fun _ => "D") "T"
      (.ok ⟨"FAILED", ⟨none, none⟩, "OK", []⟩) =
      cfFailure "User not found on Codeforces" ∧
    (fetchCodeforcesProgress "ghost" (fun _ => "D") "T"
      (.ok ⟨"FAILED", ⟨none, none⟩, "OK", []⟩)).rating = .str "Error" :=
  have h := claim10 "ghost" (fun _ => "D") "T"
    "User not found on Codeforces"
    (.ok ⟨"FAILED", ⟨none, none⟩, "OK", []⟩) rfl
  ⟨h.1, h.2.2.2.1⟩

